import Mathlib

/-!
Shallow embedding of the validation layer of the pdf-reader-mcp repository.

The embedded code comes from `src/utils/validation.ts` (`validateFilePath`,
`validatePDFFile`, `parsePageRange`), `src/utils/error-handling.ts`
(`handleError`, `createMCPError`) and `src/config/server-config.ts`
(`defaultConfig`).  Strings are modelled as `List Char`; the Node runtime is
modelled for a POSIX host (`process.platform ≠ 'win32'`, `path` = `path.posix`).
Filesystem effects are modelled by an explicit `FS` record whose `stat` field
follows symbolic links (the semantics of `fs.stat`) and whose failures carry
the underlying system error message.
-/

set_option maxRecDepth 100000

namespace PdfMcp

/-- JS `String.prototype.startsWith` on character lists. -/
def listStartsWith : List Char → List Char → Bool
  | _, [] => true
  | [], _ :: _ => false
  | a :: as, b :: bs => a == b && listStartsWith as bs

/-- JS `String.prototype.includes` on character lists: `jsIncludes s sub` is
`s.includes(sub)`. -/
def jsIncludes : List Char → List Char → Bool
  | [], sub => sub.isEmpty
  | c :: rest, sub => listStartsWith (c :: rest) sub || jsIncludes rest sub

/-- The characters treated as whitespace by JS `String.prototype.trim`. -/
def jsIsWhitespace (c : Char) : Bool :=
  let n := c.toNat
  n == 0x09 || n == 0x0A || n == 0x0B || n == 0x0C || n == 0x0D || n == 0x20 ||
  n == 0xA0 || n == 0x1680 || (0x2000 ≤ n && n ≤ 0x200A) || n == 0x2028 ||
  n == 0x2029 || n == 0x202F || n == 0x205F || n == 0x3000 || n == 0xFEFF

/-- JS `String.prototype.trim`. -/
def jsTrim (s : List Char) : List Char :=
  ((s.dropWhile jsIsWhitespace).reverse.dropWhile jsIsWhitespace).reverse

/-- JS `String.prototype.toUpperCase`, restricted to the ASCII range (the code
only compares the result against ASCII-only reserved names). -/
def jsToUpper (s : List Char) : List Char := s.map Char.toUpper

/-- JS `String.prototype.toLowerCase`, restricted to the ASCII range. -/
def jsToLower (s : List Char) : List Char := s.map Char.toLower

/-- JS `String.prototype.split` with a one-character separator. -/
def splitOnChar (sep : Char) : List Char → List (List Char)
  | [] => [[]]
  | c :: rest =>
    if c == sep then [] :: splitOnChar sep rest
    else
      match splitOnChar sep rest with
      | [] => [[c]]
      | h :: t => (c :: h) :: t

/-- Remove trailing `'/'` characters (Node `path.posix.basename` ignores
trailing separators). -/
def dropTrailingSlashes (p : List Char) : List Char :=
  (p.reverse.dropWhile (· == '/')).reverse

/-- The portion of the path after the last `'/'`. -/
def afterLastSlash (p : List Char) : List Char :=
  (p.reverse.takeWhile (· != '/')).reverse

/-- Node `path.posix.basename(p)` (one-argument form). -/
def posixBasename (p : List Char) : List Char :=
  afterLastSlash (dropTrailingSlashes p)

/-- Index of the last `'.'` in a list, if any. -/
def lastDotIndex (bn : List Char) : Option Nat :=
  match bn.reverse.findIdx? (· == '.') with
  | none => none
  | some i => some (bn.length - 1 - i)

/-- Extension of a basename, following Node `path.posix.extname`: the suffix
from the last dot, except that a dot in first position, a lone basename `".."`
or a dotless basename give the empty extension. -/
def extOfBasename (bn : List Char) : List Char :=
  match lastDotIndex bn with
  | none => []
  | some d => if d == 0 then [] else if bn == ['.', '.'] then [] else bn.drop d

/-- Node `path.posix.extname(p)`. -/
def posixExtname (p : List Char) : List Char :=
  extOfBasename (posixBasename p)

/-- JS `String.prototype.endsWith` on character lists. -/
def listEndsWith (s suf : List Char) : Bool :=
  listStartsWith s.reverse suf.reverse

/-- Node `path.posix.basename(p, ext)` (two-argument form): the basename with
the suffix `ext` stripped, except when the whole path equals `ext` (result is
empty) or the whole basename equals `ext` (nothing is stripped). -/
def posixBasenameExt (p ext : List Char) : List Char :=
  if ext.isEmpty || p.length < ext.length then posixBasename p
  else if ext == p then []
  else
    let bn := posixBasename p
    if bn != ext && listEndsWith bn ext then bn.take (bn.length - ext.length) else bn

/-- Numeric value of a hexadecimal digit character. -/
def hexVal (c : Char) : Option Nat :=
  if '0' ≤ c ∧ c ≤ '9' then some (c.toNat - 48)
  else if 'A' ≤ c ∧ c ≤ 'F' then some (c.toNat - 55)
  else if 'a' ≤ c ∧ c ≤ 'f' then some (c.toNat - 87)
  else none

/-- First phase of ECMAScript `decodeURIComponent`: replace each `%XX` escape
by the byte it denotes, failing on a `%` not followed by two hex digits. -/
def percentTokens : List Char → Option (List (Sum Char Nat))
  | [] => some []
  | '%' :: rest =>
    match rest with
    | h1 :: h2 :: rest2 =>
      match hexVal h1, hexVal h2 with
      | some a, some b => (percentTokens rest2).map (fun ts => Sum.inr (16 * a + b) :: ts)
      | _, _ => none
    | _ => none
  | c :: rest => (percentTokens rest).map (fun ts => Sum.inl c :: ts)

/-- Whether a byte is a UTF-8 continuation byte. -/
def isCont (b : Nat) : Bool := 0x80 ≤ b && b ≤ 0xBF

/-- Second phase of ECMAScript `decodeURIComponent`: strict UTF-8 decoding of
the byte tokens (overlong encodings, surrogates and out-of-range lead bytes
are rejected, as V8 does). -/
def utf8DecodeTokens : List (Sum Char Nat) → Option (List Char)
  | [] => some []
  | Sum.inl c :: ts => (utf8DecodeTokens ts).map (c :: ·)
  | Sum.inr b :: ts =>
    if b < 0x80 then (utf8DecodeTokens ts).map (Char.ofNat b :: ·)
    else if 0xC2 ≤ b && b ≤ 0xDF then
      match ts with
      | Sum.inr b2 :: ts2 =>
        if isCont b2 then
          (utf8DecodeTokens ts2).map (Char.ofNat ((b - 0xC0) * 64 + (b2 - 0x80)) :: ·)
        else none
      | _ => none
    else if 0xE0 ≤ b && b ≤ 0xEF then
      match ts with
      | Sum.inr b2 :: Sum.inr b3 :: ts2 =>
        let lo2 := if b == 0xE0 then 0xA0 else 0x80
        let hi2 := if b == 0xED then 0x9F else 0xBF
        if lo2 ≤ b2 && b2 ≤ hi2 && isCont b3 then
          (utf8DecodeTokens ts2).map
            (Char.ofNat ((b - 0xE0) * 4096 + (b2 - 0x80) * 64 + (b3 - 0x80)) :: ·)
        else none
      | _ => none
    else if 0xF0 ≤ b && b ≤ 0xF4 then
      match ts with
      | Sum.inr b2 :: Sum.inr b3 :: Sum.inr b4 :: ts2 =>
        let lo2 := if b == 0xF0 then 0x90 else 0x80
        let hi2 := if b == 0xF4 then 0x8F else 0xBF
        if lo2 ≤ b2 && b2 ≤ hi2 && isCont b3 && isCont b4 then
          (utf8DecodeTokens ts2).map
            (Char.ofNat
              ((b - 0xF0) * 262144 + (b2 - 0x80) * 4096 + (b3 - 0x80) * 64 + (b4 - 0x80)) :: ·)
        else none
      | _ => none
    else none

/-- ECMAScript `decodeURIComponent`; `none` models a thrown `URIError`. -/
def decodeURIComponent (s : List Char) : Option (List Char) :=
  (percentTokens s).bind utf8DecodeTokens

/-- Node `path.posix.isAbsolute`. -/
def isPosixAbsolute (p : List Char) : Bool :=
  match p with
  | '/' :: _ => true
  | _ => false

/-- Segment normalization used by `path.posix.resolve` on an absolute input:
empty and `.` segments are dropped, `..` pops the previous segment (or is
dropped at the root).  The accumulator holds the kept segments reversed. -/
def normalizeSegs : List (List Char) → List (List Char) → List (List Char)
  | acc, [] => acc.reverse
  | acc, seg :: rest =>
    if seg.isEmpty || seg == ['.'] then normalizeSegs acc rest
    else if seg == ['.', '.'] then normalizeSegs acc.tail rest
    else normalizeSegs (seg :: acc) rest

/-- Node `path.resolve(p)` on a POSIX host with current working directory
`cwd` (assumed absolute): prepend `cwd` when `p` is relative, then normalize. -/
def posixResolve (cwd p : List Char) : List Char :=
  let full := if isPosixAbsolute p then p else cwd ++ '/' :: p
  '/' :: List.intercalate ['/'] (normalizeSegs [] (splitOnChar '/' full))

/-- The `ValidationError` class of `src/utils/validation.ts`: a message and a
machine-readable code. -/
structure ValidationError where
  message : String
  code : String
deriving DecidableEq, Repr

/-- The part of `ServerConfig` (`src/config/server-config.ts`) that the
validation layer reads. -/
structure ServerConfig where
  maxFileSize : Nat
deriving DecidableEq, Repr

/-- The `defaultConfig` of `src/config/server-config.ts` (100 MiB ceiling). -/
def defaultConfig : ServerConfig := { maxFileSize := 100 * 1024 * 1024 }

/-- Result of a successful `fs.stat`: whether the target is a regular file and
its size in bytes. -/
structure FSStats where
  isFile : Bool
  size : Nat
deriving DecidableEq, Repr

/-- Filesystem model.  `stat` models `fs.promises.stat`, which FOLLOWS
symbolic links; an `Except.error` carries the system error message of the
thrown exception (ENOENT, EACCES, ...).  `lstatIsSymlink` records whether the
path itself is a symbolic link (what `fs.lstat(...).isSymbolicLink()` would
report); the embedded code never consults it.  `readFile` models
`fs.promises.readFile`, returning the file bytes. -/
structure FS where
  stat : List Char → Except String FSStats
  lstatIsSymlink : List Char → Bool
  readFile : List Char → Except String (List Nat)

/-- The eight entries of the `windowsReserved` array in `validateFilePath`. -/
def windowsReserved : List (List Char) :=
  ["CON".data, "PRN".data, "AUX".data, "NUL".data,
   "COM1".data, "COM2".data, "LPT1".data, "LPT2".data]

/-- The modelled host is POSIX, so `process.platform === 'win32'` is false. -/
def platformIsWin32 : Bool := false

/-- The character class of the regex `/[\x00-\x1f\x7f-\x9f]/`. -/
def isJsControlChar (c : Char) : Bool :=
  c.toNat ≤ 0x1F || (0x7F ≤ c.toNat && c.toNat ≤ 0x9F)

/-- The security-check block of `validateFilePath` (checks computed before any
filesystem access); `true` means at least one violation flag is set and the
generic `SECURITY_VIOLATION` error is thrown. -/
def securityViolation (filePath : List Char) : Bool :=
  let hasDirectoryTraversal := jsIncludes filePath "..".data || jsIncludes filePath "~".data
  let hasControlChars := filePath.any isJsControlChar
  let hasNTFSStreams :=
    jsIncludes filePath ":".data && platformIsWin32 && !isPosixAbsolute filePath
  let basename := posixBasenameExt filePath (posixExtname filePath)
  let hasReservedName := windowsReserved.contains (jsToUpper basename)
  let hasEncodedTraversal :=
    match decodeURIComponent filePath with
    | none => true
    | some decodedPath =>
      jsIncludes decodedPath "..".data || jsIncludes decodedPath "~".data
  let lowerPath := jsToLower filePath
  let isSensitiveAbsolutePath := isPosixAbsolute filePath &&
    (jsIncludes lowerPath "/etc/".data || jsIncludes lowerPath "/root/".data ||
     jsIncludes lowerPath "/proc/".data || jsIncludes lowerPath "/dev/".data ||
     jsIncludes lowerPath "c:\\windows\\".data || jsIncludes lowerPath "/var/log/".data ||
     jsIncludes lowerPath "/sys/".data)
  hasDirectoryTraversal || hasControlChars || hasNTFSStreams || hasReservedName ||
    hasEncodedTraversal || isSensitiveAbsolutePath

/-- The `try { fs.stat ... }` block of `validateFilePath`: a failed stat is
collapsed to `FILE_NOT_FOUND`; on success a non-file gives `NOT_A_FILE` and an
oversized file gives `FILE_TOO_LARGE`. -/
def statStage (config : ServerConfig) (fsm : FS) (resolvedPath : List Char) :
    Except ValidationError Unit :=
  match fsm.stat resolvedPath with
  | Except.error _ =>
    Except.error ⟨"File not found or inaccessible", "FILE_NOT_FOUND"⟩
  | Except.ok stats =>
    if !stats.isFile then
      Except.error ⟨"Path does not point to a file", "NOT_A_FILE"⟩
    else if stats.size > config.maxFileSize then
      Except.error ⟨"File size " ++ toString stats.size ++
        " exceeds maximum allowed size " ++ toString config.maxFileSize, "FILE_TOO_LARGE"⟩
    else Except.ok ()

/-- The exported `validateFilePath` of `src/utils/validation.ts`. -/
def validateFilePath (config : ServerConfig) (fsm : FS) (cwd filePath : List Char) :
    Except ValidationError Unit :=
  if filePath.isEmpty then
    Except.error ⟨"File path must be a non-empty string", "INVALID_PATH"⟩
  else if securityViolation filePath then
    Except.error ⟨"Invalid file path", "SECURITY_VIOLATION"⟩
  else statStage config fsm (posixResolve cwd filePath)

/-- The byte values of the ASCII signature `%PDF`; comparing the first four
bytes against these values is equivalent to the source's comparison of
`buffer.subarray(0, 4).toString()` with the string `'%PDF'`. -/
def pdfMagicBytes : List Nat := [37, 80, 68, 70]

/-- The exported `validatePDFFile` of `src/utils/validation.ts`.  Note that
`fs.readFile` is called on the raw `filePath`, not on the resolved path. -/
def validatePDFFile (config : ServerConfig) (fsm : FS) (cwd filePath : List Char) :
    Except ValidationError Unit :=
  match validateFilePath config fsm cwd filePath with
  | Except.error e => Except.error e
  | Except.ok _ =>
    match fsm.readFile filePath with
    | Except.error _ => Except.error ⟨"Error reading PDF file", "READ_ERROR"⟩
    | Except.ok buffer =>
      if buffer.length < 4 then
        Except.error ⟨"File is too small to be a valid PDF", "INVALID_PDF"⟩
      else if buffer.take 4 == pdfMagicBytes then Except.ok ()
      else
        Except.error ⟨"File does not appear to be a PDF (invalid magic number)", "INVALID_PDF"⟩

/-- JS `parseInt` with no explicit radix: skip leading whitespace, read an
optional sign, detect a `0x`/`0X` prefix (hexadecimal), then read the longest
prefix of digits of the radix; `none` models `NaN`. -/
def jsParseInt (s : List Char) : Option Int :=
  let t := s.dropWhile jsIsWhitespace
  let signed :=
    match t with
    | '+' :: r => ((1 : Int), r)
    | '-' :: r => ((-1 : Int), r)
    | _ => ((1 : Int), t)
  let based :=
    match signed.2 with
    | '0' :: 'x' :: r => ((16 : Nat), r)
    | '0' :: 'X' :: r => ((16 : Nat), r)
    | _ => ((10 : Nat), signed.2)
  let digits := based.2.takeWhile (fun c => (hexVal c).elim false (· < based.1))
  if digits.isEmpty then none
  else some (signed.1 * Int.ofNat (digits.foldl (fun acc c => acc * based.1 + (hexVal c).getD 0) 0))

/-- The inclusive integer range pushed by `for (let i = start; i <= end; i++)`. -/
def intRange (a b : Int) : List Int :=
  (List.range (b + 1 - a).toNat).map (fun (i : Nat) => a + (i : Int))

/-- The array `Array.from({length: totalPages}, (_, i) => i + 1)`. -/
def pageListAll (totalPages : Nat) : List Int :=
  (List.range totalPages).map (fun (i : Nat) => (i : Int) + 1)

/-- The final `Array.from(new Set(pages)).sort((a, b) => a - b)`: deduplicate,
then sort numerically ascending. -/
def jsSetSort (pages : List Int) : List Int :=
  List.insertionSort (· ≤ ·) pages.dedup

/-- The `INVALID_PAGE_RANGE` error, echoing the offending trimmed term. -/
def rangeErr (trimmed : List Char) : ValidationError :=
  ⟨"Invalid page range: " ++ String.mk trimmed, "INVALID_PAGE_RANGE"⟩

/-- The `INVALID_PAGE_NUMBER` error, echoing the offending trimmed term. -/
def numberErr (trimmed : List Char) : ValidationError :=
  ⟨"Invalid page number: " ++ String.mk trimmed, "INVALID_PAGE_NUMBER"⟩

/-- The body of the `for (const part of parts)` loop of `parsePageRange` for a
single part, acting on the accumulated `pages`.  In the range branch the
destructuring `[start, end]` reads the first two pieces of the split; the
fallback arm is unreachable because a term containing `'-'` splits into at
least two pieces. -/
def processPart (totalPages : Nat) (pages : List Int) (part : List Char) :
    Except ValidationError (List Int) :=
  let trimmed := jsTrim part
  if trimmed.contains '-' then
    match splitOnChar '-' trimmed with
    | piece0 :: piece1 :: _ =>
      match jsParseInt (jsTrim piece0), jsParseInt (jsTrim piece1) with
      | some s, some e =>
        if s < 1 ∨ e < s ∨ e > (totalPages : Int) then Except.error (rangeErr trimmed)
        else Except.ok (pages ++ intRange s e)
      | _, _ => Except.error (rangeErr trimmed)
    | _ => Except.error (rangeErr trimmed)
  else
    match jsParseInt trimmed with
    | some n =>
      if n < 1 ∨ n > (totalPages : Int) then Except.error (numberErr trimmed)
      else Except.ok (pages ++ [n])
    | none => Except.error (numberErr trimmed)

/-- The whole part loop of `parsePageRange`. -/
def processParts (totalPages : Nat) : List (List Char) → List Int →
    Except ValidationError (List Int)
  | [], pages => Except.ok pages
  | part :: rest, pages =>
    match processPart totalPages pages part with
    | Except.error e => Except.error e
    | Except.ok pages2 => processParts totalPages rest pages2

/-- The exported `parsePageRange` of `src/utils/validation.ts`. -/
def parsePageRange (pageRange : List Char) (totalPages : Nat) :
    Except ValidationError (List Int) :=
  if pageRange = [] ∨ jsToLower pageRange = "all".data then
    Except.ok (pageListAll totalPages)
  else
    match processParts totalPages (splitOnChar ',' pageRange) [] with
    | Except.error e => Except.error e
    | Except.ok pages => Except.ok (jsSetSort pages)

/-- The failure condition of the range branch of `parsePageRange` for a
trimmed term containing `'-'`: one of the two bounds does not parse as an
integer, or `start < 1`, or `end < start`, or `end > totalPages`. -/
def rangeTermViolation (totalPages : Nat) (trimmed : List Char) : Bool :=
  match splitOnChar '-' trimmed with
  | piece0 :: piece1 :: _ =>
    match jsParseInt (jsTrim piece0), jsParseInt (jsTrim piece1) with
    | some s, some e => decide (s < 1) || decide (e < s) || decide (e > (totalPages : Int))
    | _, _ => true
  | _ => true

/-- The failure condition of the single-term branch of `parsePageRange`: the
term does not parse as an integer in `[1, totalPages]`. -/
def singleTermViolation (totalPages : Nat) (trimmed : List Char) : Bool :=
  match jsParseInt trimmed with
  | some n => decide (n < 1) || decide (n > (totalPages : Int))
  | none => true

/-- The `data` payload of an `MCPError` (`src/types/pdf-types.ts`). -/
structure MCPErrorData where
  errorType : String
  filePath : Option String
  details : Option String
deriving DecidableEq, Repr

/-- The structured `MCPError` returned by the error classifier. -/
structure MCPError where
  code : Int
  message : String
  data : MCPErrorData
deriving DecidableEq, Repr

/-- The `createMCPError` helper of `src/utils/error-handling.ts`. -/
def createMCPError (code : Int) (message errorType : String)
    (filePath details : Option String) : MCPError :=
  ⟨code, message, ⟨errorType, filePath, details⟩⟩

/-- A thrown JS value as discriminated by `handleError`: a `ValidationError`,
some other `Error` (with message and stack), or a non-`Error` value. -/
inductive Thrown where
  | validation (e : ValidationError)
  | jsError (message : String) (stack : Option String)
  | nonError
deriving DecidableEq, Repr

/-- JS `String.prototype.includes` on `String`. -/
def strIncludes (s sub : String) : Bool := jsIncludes s.data sub.data

/-- The exported `handleError` of `src/utils/error-handling.ts`. -/
def handleError (error : Thrown) (filePath : Option String) : MCPError :=
  match error with
  | Thrown.validation e =>
    if e.code == "INVALID_PATH" || e.code == "SECURITY_VIOLATION" then
      createMCPError (-32602) e.message "VALIDATION_ERROR" filePath none
    else if e.code == "FILE_NOT_FOUND" then
      createMCPError (-32603) e.message "FILE_ERROR" filePath none
    else if e.code == "FILE_TOO_LARGE" then
      createMCPError (-32604) e.message "SIZE_ERROR" filePath none
    else if e.code == "INVALID_PDF" then
      createMCPError (-32605) e.message "FORMAT_ERROR" filePath none
    else createMCPError (-32603) e.message "VALIDATION_ERROR" filePath none
  | Thrown.jsError msg stack =>
    if strIncludes msg "ENOENT" then
      createMCPError (-32603) "File not found" "FILE_ERROR" filePath none
    else if strIncludes msg "EACCES" then
      createMCPError (-32603) "Permission denied" "PERMISSION_ERROR" filePath none
    else if strIncludes msg "EMFILE" || strIncludes msg "ENFILE" then
      createMCPError (-32604) "Too many open files" "RESOURCE_ERROR" filePath none
    else createMCPError (-32603) msg "PROCESSING_ERROR" filePath stack
  | Thrown.nonError =>
    createMCPError (-32603) "Unknown error occurred" "UNKNOWN_ERROR" filePath none

/-- Message of an `Except ValidationError` result (empty for success). -/
def resultMessage : Except ValidationError Unit → String
  | Except.error e => e.message
  | Except.ok _ => ""

/-- The four attack vectors of the error-information test in
`src/tests/security.test.ts`. -/
def attackVectors : List (List Char) :=
  ["../x".data, "~/x".data, "/etc/shadow".data, "x\u0000".data]

/-- A fixture working directory for concrete runs. -/
def srvCwd : List Char := "/srv".data

/-- A fixture filesystem on which every access fails. -/
def emptyFS : FS :=
  { stat := fun _ => Except.error "ENOENT: no such file or directory",
    lstatIsSymlink := fun _ => false,
    readFile := fun _ => Except.error "ENOENT: no such file or directory" }

/-- A fixture filesystem holding `/srv/COM3.pdf` as a small regular file. -/
def com3FS : FS :=
  { stat := fun p =>
      if p = "/srv/COM3.pdf".data then Except.ok ⟨true, 4⟩
      else Except.error "ENOENT: no such file or directory",
    lstatIsSymlink := fun _ => false,
    readFile := fun p =>
      if p = "COM3.pdf".data then Except.ok pdfMagicBytes
      else Except.error "ENOENT: no such file or directory" }

/-- A fixture filesystem in which `/tmp/link.pdf` is a symbolic link whose
target is an existing regular 1000-byte file: `lstat` reports a symlink while
`stat` (which follows links) reports the target's regular-file stats. -/
def symlinkFS : FS :=
  { stat := fun p =>
      if p = "/tmp/link.pdf".data then Except.ok ⟨true, 1000⟩
      else Except.error "ENOENT: no such file or directory",
    lstatIsSymlink := fun p => p == "/tmp/link.pdf".data,
    readFile := fun _ => Except.error "ENOENT: no such file or directory" }

/-- A 264-character absolute path of 26 directory segments. -/
def longDeepPath : List Char :=
  (String.join (List.replicate 25 "/abcdefghi")).data ++ "/abcdefghi.pdf".data

/-- A fixture filesystem holding `longDeepPath` as a small regular file. -/
def deepFS : FS :=
  { stat := fun p =>
      if p = longDeepPath then Except.ok ⟨true, 4⟩
      else Except.error "ENOENT: no such file or directory",
    lstatIsSymlink := fun _ => false,
    readFile := fun _ => Except.error "ENOENT: no such file or directory" }

/-- A fixture path that passes every security check. -/
def okPdfPath : List Char := "doc.pdf".data

/-- A fixture filesystem where `/srv/doc.pdf` stats fine but every read throws
an I/O error. -/
def readFailFS : FS :=
  { stat := fun p =>
      if p = "/srv/doc.pdf".data then Except.ok ⟨true, 4⟩
      else Except.error "ENOENT: no such file or directory",
    lstatIsSymlink := fun _ => false,
    readFile := fun _ => Except.error "EIO: i/o error, read" }

/-- A fixture filesystem where `/srv/doc.pdf` stats fine and reading
`doc.pdf` yields a buffer starting with the `%PDF` signature. -/
def goodFS : FS :=
  { stat := fun p =>
      if p = "/srv/doc.pdf".data then Except.ok ⟨true, 4⟩
      else Except.error "ENOENT: no such file or directory",
    lstatIsSymlink := fun _ => false,
    readFile := fun p =>
      if p = "doc.pdf".data then Except.ok pdfMagicBytes
      else Except.error "ENOENT: no such file or directory" }

/-- A fixture filesystem on which every stat fails with a permission error. -/
def eaccesFS : FS :=
  { stat := fun _ => Except.error "EACCES: permission denied",
    lstatIsSymlink := fun _ => false,
    readFile := fun _ => Except.error "EACCES: permission denied" }

theorem jsIncludes_nil (sub : List Char) : jsIncludes [] sub = sub.isEmpty := rfl

theorem ne_nil_of_jsIncludes {p sub : List Char} (hsub : sub ≠ [])
    (h : jsIncludes p sub = true) : p ≠ [] := by
  intro hp; subst hp
  cases sub with
  | nil => exact hsub rfl
  | cons c cs => simp [jsIncludes, List.isEmpty] at h

theorem isEmpty_false_of_ne_nil {p : List Char} (hp : p ≠ []) : p.isEmpty = false := by
  cases p with
  | nil => exact absurd rfl hp
  | cons c r => rfl

/-- Whenever the security-check block fires, `validateFilePath` throws the
generic `SECURITY_VIOLATION` error without touching the filesystem. -/
theorem validateFilePath_of_securityViolation (config : ServerConfig) (fsm : FS)
    (cwd : List Char) {p : List Char} (hp : p ≠ []) (hsec : securityViolation p = true) :
    validateFilePath config fsm cwd p =
      Except.error ⟨"Invalid file path", "SECURITY_VIOLATION"⟩ := by
  simp [validateFilePath, isEmpty_false_of_ne_nil hp, hsec]

/-- C1: every candidate containing a literal `..` or `~` substring, or whose
URI-component decoding fails, or whose decoded form contains `..` or `~`, is
rejected by `validateFilePath` with kind `SECURITY_VIOLATION`, for any
configuration, filesystem and working directory (in particular even when the
path would normalize to a safe location). -/
theorem c1_traversal_and_encoding_rejected (config : ServerConfig) (fsm : FS)
    (cwd p : List Char)
    (h : jsIncludes p "..".data = true ∨ jsIncludes p "~".data = true ∨
      decodeURIComponent p = none ∨
      (∃ d, decodeURIComponent p = some d ∧
        (jsIncludes d "..".data = true ∨ jsIncludes d "~".data = true))) :
    validateFilePath config fsm cwd p =
      Except.error ⟨"Invalid file path", "SECURITY_VIOLATION"⟩ := by
  have hp : p ≠ [] := by
    rcases h with h | h | h | ⟨d, hd, hincl⟩
    · exact ne_nil_of_jsIncludes (by decide) h
    · exact ne_nil_of_jsIncludes (by decide) h
    · intro hp; subst hp; exact absurd h (by decide)
    · intro hp; subst hp
      have hdnil : (some ([] : List Char) : Option (List Char)) = some d := hd
      have hdeq : d = [] := (Option.some.inj hdnil).symm
      subst hdeq
      rcases hincl with h' | h' <;> exact absurd h' (by decide)
  have hsec : securityViolation p = true := by
    unfold securityViolation
    rcases h with h | h | h | ⟨d, hd, hincl⟩
    · simp [h]
    · simp [h]
    · simp [h]
    · rcases hincl with h' | h' <;> simp [hd, h']
  exact validateFilePath_of_securityViolation config fsm cwd hp hsec

/-- C1 witness: the percent-encoded traversal `%2e%2e` decodes to `..` and is
rejected on a concrete configuration, filesystem and working directory. -/
theorem c1_traversal_witness :
    validateFilePath defaultConfig emptyFS srvCwd "%2e%2e".data =
      Except.error ⟨"Invalid file path", "SECURITY_VIOLATION"⟩ :=
  c1_traversal_and_encoding_rejected defaultConfig emptyFS srvCwd "%2e%2e".data
    (Or.inr (Or.inr (Or.inr ⟨"..".data, rfl, Or.inl (by decide)⟩)))

/-- C2: the code calls `fs.stat`, which follows symbolic links, and never
consults `lstat`; hence a path that is a symbolic link to an existing regular
file within the size ceiling is accepted by `validateFilePath`, contradicting
the specified rejection of symlinks (and the intent of the repository's own
symlink test, which mocks `fs.lstat`). -/
theorem c2_symlink_accepted :
    symlinkFS.lstatIsSymlink (posixResolve srvCwd "/tmp/link.pdf".data) = true ∧
    validateFilePath defaultConfig symlinkFS srvCwd "/tmp/link.pdf".data = Except.ok () :=
  ⟨rfl, rfl⟩

/-- C3 counterexample: the filename stem `COM3` is one of the names the claim
says is rejected, yet `validateFilePath` accepts `COM3.pdf` (the code's
reserved list stops at `COM2`/`LPT2`). -/
theorem c3_com3_accepted :
    jsToUpper (posixBasenameExt "COM3.pdf".data (posixExtname "COM3.pdf".data)) =
      "COM3".data ∧
    validateFilePath defaultConfig com3FS srvCwd "COM3.pdf".data = Except.ok () :=
  ⟨rfl, rfl⟩

/-- C3 amended: for every path whose filename stem (extension stripped),
uppercased, is one of the EIGHT reserved names `CON`, `PRN`, `AUX`, `NUL`,
`COM1`, `COM2`, `LPT1`, `LPT2`, `validateFilePath` fails with
`SECURITY_VIOLATION`, for any extension; `COM3`-`COM9` and `LPT3`-`LPT9` are
not in the code's list. -/
theorem c3_amended_reserved8 (config : ServerConfig) (fsm : FS) (cwd p : List Char)
    (h : windowsReserved.contains
      (jsToUpper (posixBasenameExt p (posixExtname p))) = true) :
    validateFilePath config fsm cwd p =
      Except.error ⟨"Invalid file path", "SECURITY_VIOLATION"⟩ := by
  have hp : p ≠ [] := by
    intro hp; subst hp; exact absurd h (by decide)
  have hsec : securityViolation p = true := by
    unfold securityViolation
    simp only [List.contains_eq_any_beq, List.any_eq_true, beq_iff_eq] at h
    obtain ⟨x, hx, hxeq⟩ := h
    subst hxeq
    simp [hx]
  exact validateFilePath_of_securityViolation config fsm cwd hp hsec

/-- C3 amended witness: `con.txt` has stem `con`, uppercased `CON`, and is
rejected on a concrete configuration, filesystem and working directory. -/
theorem c3_amended_witness :
    validateFilePath defaultConfig emptyFS srvCwd "con.txt".data =
      Except.error ⟨"Invalid file path", "SECURITY_VIOLATION"⟩ :=
  c3_amended_reserved8 defaultConfig emptyFS srvCwd "con.txt".data (by decide)

/-- C4 counterexample: a 264-character candidate with 26 directory segments
is NOT rejected: it passes every pre-filesystem check and validates
successfully on a filesystem where it exists as a small regular file, so
`validateFilePath` has no length or depth limit. -/
theorem c4_long_deep_path_accepted :
    255 < longDeepPath.length ∧
    20 < ((splitOnChar '/' longDeepPath).filter (fun seg => !seg.isEmpty)).length ∧
    validateFilePath defaultConfig deepFS srvCwd longDeepPath = Except.ok () :=
  ⟨by decide, by decide, rfl⟩

/-- C4 amended: `validateFilePath` imposes no maximum-length and no
directory-depth check: the outcome on the 264-character, 26-segment candidate
is decided entirely by the filesystem stage, for every configuration,
filesystem and working directory. -/
theorem c4_amended_no_length_or_depth_limit (config : ServerConfig) (fsm : FS)
    (cwd : List Char) :
    validateFilePath config fsm cwd longDeepPath =
      statStage config fsm (posixResolve cwd longDeepPath) := rfl

/-- C5: the four attack vectors `../x`, `~/x`, `/etc/shadow` and `x\x00` all
produce the identical generic error, so the observable messages collapse to at
most 2 distinct strings (in fact 1), and the generic message contains none of
the rejected raw inputs. -/
theorem c5_uniform_security_errors (config : ServerConfig) (fsm : FS) (cwd : List Char) :
    validateFilePath config fsm cwd "../x".data =
      Except.error ⟨"Invalid file path", "SECURITY_VIOLATION"⟩ ∧
    validateFilePath config fsm cwd "~/x".data =
      Except.error ⟨"Invalid file path", "SECURITY_VIOLATION"⟩ ∧
    validateFilePath config fsm cwd "/etc/shadow".data =
      Except.error ⟨"Invalid file path", "SECURITY_VIOLATION"⟩ ∧
    validateFilePath config fsm cwd "x\u0000".data =
      Except.error ⟨"Invalid file path", "SECURITY_VIOLATION"⟩ ∧
    ((attackVectors.map fun a =>
        resultMessage (validateFilePath config fsm cwd a)).dedup).length ≤ 2 ∧
    (attackVectors.all fun a => !jsIncludes "Invalid file path".data a) = true := by
  refine ⟨rfl, rfl, rfl, rfl, ?_, by decide⟩
  have hmap : (attackVectors.map fun a =>
      resultMessage (validateFilePath config fsm cwd a)) =
      ["Invalid file path", "Invalid file path", "Invalid file path", "Invalid file path"] := rfl
  rw [hmap]
  decide

/-- C6 counterexample: on a filesystem where the path validates but every
read throws, `validatePDFFile` fails with kind `READ_ERROR`, not the claimed
`InvalidPdf`. -/
theorem c6_read_failure_is_read_error :
    validateFilePath defaultConfig readFailFS srvCwd okPdfPath = Except.ok () ∧
    validatePDFFile defaultConfig readFailFS srvCwd okPdfPath =
      Except.error ⟨"Error reading PDF file", "READ_ERROR"⟩ ∧
    ("READ_ERROR" : String) ≠ "INVALID_PDF" :=
  ⟨rfl, rfl, by decide⟩

/-- C6 amended: `validatePDFFile` succeeds exactly when `validateFilePath`
succeeds, the read succeeds and the first 4 bytes are `%PDF`; after a
successful path validation a read failure yields kind `READ_ERROR`, while a
successful read whose content does not start with the 4-byte `%PDF` signature
yields kind `INVALID_PDF`. -/
theorem c6_amended_read_and_signature (config : ServerConfig) (fsm : FS) (cwd p : List Char) :
    (validatePDFFile config fsm cwd p = Except.ok () ↔
      validateFilePath config fsm cwd p = Except.ok () ∧
      ∃ buffer, fsm.readFile p = Except.ok buffer ∧ buffer.take 4 = pdfMagicBytes) ∧
    (∀ sysErr, validateFilePath config fsm cwd p = Except.ok () →
      fsm.readFile p = Except.error sysErr →
      validatePDFFile config fsm cwd p =
        Except.error ⟨"Error reading PDF file", "READ_ERROR"⟩) ∧
    (∀ buffer, validateFilePath config fsm cwd p = Except.ok () →
      fsm.readFile p = Except.ok buffer → buffer.take 4 ≠ pdfMagicBytes →
      ∃ m, validatePDFFile config fsm cwd p = Except.error ⟨m, "INVALID_PDF"⟩) := by
  refine ⟨?_, ?_, ?_⟩
  · cases hv : validateFilePath config fsm cwd p with
    | error e => simp [validatePDFFile, hv]
    | ok u =>
      cases u
      cases hr : fsm.readFile p with
      | error s => simp [validatePDFFile, hv, hr]
      | ok buffer =>
        simp only [validatePDFFile, hv, hr, Except.ok.injEq, true_and, exists_eq_left']
        by_cases hlen : buffer.length < 4
        · simp only [hlen, if_true]
          constructor
          · intro h; exact Except.noConfusion h
          · intro hc
            have hlc := congrArg List.length hc
            simp [List.length_take, pdfMagicBytes] at hlc
            omega
        · simp only [hlen, if_false]
          by_cases hm : buffer.take 4 = pdfMagicBytes
          · simp [beq_iff_eq, hm]
          · simp [beq_iff_eq, hm]
  · intro sysErr hok hre
    simp [validatePDFFile, hok, hre]
  · intro buffer hok hre hne
    simp only [validatePDFFile, hok, hre]
    by_cases hlen : buffer.length < 4
    · exact ⟨"File is too small to be a valid PDF", by simp [hlen]⟩
    · exact ⟨"File does not appear to be a PDF (invalid magic number)",
        by simp [hlen, beq_iff_eq, hne]⟩

/-- C6 amended witness: on a filesystem whose `doc.pdf` starts with `%PDF`,
`validatePDFFile` succeeds; obtained by applying the amended
characterization at that concrete filesystem. -/
theorem c6_amended_witness :
    validatePDFFile defaultConfig goodFS srvCwd okPdfPath = Except.ok () :=
  (c6_amended_read_and_signature defaultConfig goodFS srvCwd okPdfPath).1.mpr
    ⟨rfl, pdfMagicBytes, rfl, rfl⟩

/-- C9 counterexample: an `INVALID_PAGE_RANGE` validation error is classified
by `handleError` with code `-32603` (the default branch), not the claimed
`-32602`. -/
theorem c9_page_range_code_mismatch :
    (handleError (Thrown.validation ⟨"Invalid page range: 0-5", "INVALID_PAGE_RANGE"⟩)
      none).code = -32603 ∧
    (handleError (Thrown.validation ⟨"Invalid page range: 0-5", "INVALID_PAGE_RANGE"⟩)
      none).code ≠ -32602 := by
  constructor
  · rfl
  · decide

/-- C9 amended: `handleError` is total (it always returns a structured
`MCPError`) and maps kinds per the code's table: `INVALID_PAGE_RANGE` and
`INVALID_PAGE_NUMBER` fall to the default branch (code `-32603`, category
`VALIDATION_ERROR`); `FILE_NOT_FOUND` to `-32603` `FILE_ERROR`;
`FILE_TOO_LARGE` to `-32604` `SIZE_ERROR`; `INVALID_PDF` to `-32605`
`FORMAT_ERROR`; unrecognized errors mentioning `EACCES` (and not `ENOENT`) to
`PERMISSION_ERROR`; `EMFILE`/`ENFILE` (and neither `ENOENT` nor `EACCES`) to
`-32604` `RESOURCE_ERROR`; and any non-Error thrown value to `-32603`
`UNKNOWN_ERROR`. -/
theorem c9_amended_error_mapping (e : ValidationError) (msg : String)
    (stack fp : Option String) :
    ((e.code = "INVALID_PAGE_RANGE" ∨ e.code = "INVALID_PAGE_NUMBER") →
      handleError (Thrown.validation e) fp =
        createMCPError (-32603) e.message "VALIDATION_ERROR" fp none) ∧
    (e.code = "FILE_NOT_FOUND" →
      handleError (Thrown.validation e) fp =
        createMCPError (-32603) e.message "FILE_ERROR" fp none) ∧
    (e.code = "FILE_TOO_LARGE" →
      handleError (Thrown.validation e) fp =
        createMCPError (-32604) e.message "SIZE_ERROR" fp none) ∧
    (e.code = "INVALID_PDF" →
      handleError (Thrown.validation e) fp =
        createMCPError (-32605) e.message "FORMAT_ERROR" fp none) ∧
    (strIncludes msg "EACCES" = true → strIncludes msg "ENOENT" = false →
      handleError (Thrown.jsError msg stack) fp =
        createMCPError (-32603) "Permission denied" "PERMISSION_ERROR" fp none) ∧
    ((strIncludes msg "EMFILE" = true ∨ strIncludes msg "ENFILE" = true) →
      strIncludes msg "ENOENT" = false → strIncludes msg "EACCES" = false →
      handleError (Thrown.jsError msg stack) fp =
        createMCPError (-32604) "Too many open files" "RESOURCE_ERROR" fp none) ∧
    (handleError Thrown.nonError fp =
      createMCPError (-32603) "Unknown error occurred" "UNKNOWN_ERROR" fp none) := by
  obtain ⟨m, c⟩ := e
  refine ⟨?_, ?_, ?_, ?_, ?_, ?_, rfl⟩
  · rintro (hc | hc) <;> (simp only at hc; subst hc; rfl)
  · intro hc; simp only at hc; subst hc; rfl
  · intro hc; simp only at hc; subst hc; rfl
  · intro hc; simp only at hc; subst hc; rfl
  · intro h1 h2
    simp [handleError, h1, h2]
  · rintro (h1 | h1) h2 h3 <;> simp [handleError, h1, h2, h3]

/-- C9 amended witness: a concrete `INVALID_PAGE_NUMBER` error maps to the
default branch `(-32603, VALIDATION_ERROR)`. -/
theorem c9_amended_witness :
    handleError (Thrown.validation ⟨"Invalid page number: invalid", "INVALID_PAGE_NUMBER"⟩)
      none =
      createMCPError (-32603) "Invalid page number: invalid" "VALIDATION_ERROR" none none :=
  (c9_amended_error_mapping ⟨"Invalid page number: invalid", "INVALID_PAGE_NUMBER"⟩ ""
    none none).1 (Or.inr rfl)

/-- C10: when the security checks pass and the stat on the resolved path
fails — with ANY underlying system error message (missing file, permission
denied, or other I/O failure) — `validateFilePath` fails with the single kind
`FILE_NOT_FOUND` and the fixed message `File not found or inaccessible`;
no permission-specific kind leaves path validation. -/
theorem c10_stat_failure_collapsed (config : ServerConfig) (fsm : FS) (cwd p : List Char)
    (sysErr : String) (hp : p ≠ []) (hsec : securityViolation p = false)
    (hstat : fsm.stat (posixResolve cwd p) = Except.error sysErr) :
    validateFilePath config fsm cwd p =
      Except.error ⟨"File not found or inaccessible", "FILE_NOT_FOUND"⟩ := by
  simp [validateFilePath, isEmpty_false_of_ne_nil hp, hsec, statStage, hstat]

/-- C10 witness: a permission-denied stat failure on a concrete path is
reported as `FILE_NOT_FOUND` with the fixed message. -/
theorem c10_stat_failure_witness :
    validateFilePath defaultConfig eaccesFS srvCwd "file.pdf".data =
      Except.error ⟨"File not found or inaccessible", "FILE_NOT_FOUND"⟩ :=
  c10_stat_failure_collapsed defaultConfig eaccesFS srvCwd "file.pdf".data
    "EACCES: permission denied" (by decide) (by decide) rfl

theorem mem_intRange {a b x : Int} (h : x ∈ intRange a b) : a ≤ x ∧ x ≤ b := by
  simp only [intRange, List.mem_map, List.mem_range] at h
  obtain ⟨i, hi, rfl⟩ := h
  omega

theorem intRange_ne_nil {a b : Int} (h : a ≤ b) : intRange a b ≠ [] := by
  simp only [intRange, ne_eq, List.map_eq_nil_iff, List.range_eq_nil]
  omega

theorem processPart_ok {tp : Nat} {acc : List Int} {part : List Char} {res : List Int}
    (h : processPart tp acc part = Except.ok res) :
    ∃ new, res = acc ++ new ∧ new ≠ [] ∧ ∀ x ∈ new, 1 ≤ x ∧ x ≤ (tp : Int) := by
  simp only [processPart] at h
  split at h
  · split at h
    · split at h
      · split at h
        · exact Except.noConfusion h
        · rename_i s e hs he hcond
          obtain rfl := Except.ok.inj h
          push_neg at hcond
          refine ⟨intRange s e, rfl, intRange_ne_nil hcond.2.1, ?_⟩
          intro x hx
          obtain ⟨h1, h2⟩ := mem_intRange hx
          exact ⟨le_trans hcond.1 h1, le_trans h2 hcond.2.2⟩
      · exact Except.noConfusion h
    · exact Except.noConfusion h
  · split at h
    · split at h
      · exact Except.noConfusion h
      · rename_i n hn hcond
        obtain rfl := Except.ok.inj h
        push_neg at hcond
        refine ⟨[n], rfl, by simp, ?_⟩
        intro x hx
        obtain rfl := List.mem_singleton.mp hx
        exact hcond
    · exact Except.noConfusion h

theorem processParts_ok {tp : Nat} : ∀ {parts : List (List Char)} {acc pages : List Int},
    processParts tp parts acc = Except.ok pages →
    (∀ x ∈ pages, x ∈ acc ∨ (1 ≤ x ∧ x ≤ (tp : Int))) ∧ acc.length ≤ pages.length ∧
      (parts ≠ [] → acc.length < pages.length) := by
  intro parts
  induction parts with
  | nil =>
    intro acc pages h
    obtain rfl := Except.ok.inj h
    exact ⟨fun x hx => Or.inl hx, le_refl _, fun hne => absurd rfl hne⟩
  | cons part rest ih =>
    intro acc pages h
    simp only [processParts] at h
    cases hp : processPart tp acc part with
    | error e => rw [hp] at h; exact Except.noConfusion h
    | ok acc2 =>
      rw [hp] at h
      obtain ⟨new, rfl, hnew, hbound⟩ := processPart_ok hp
      obtain ⟨hmem, hlen, _⟩ := ih h
      have hlt : acc.length < (acc ++ new).length := by
        have := List.length_pos.mpr hnew
        simp only [List.length_append]
        omega
      refine ⟨?_, by omega, fun _ => by omega⟩
      intro x hx
      rcases hmem x hx with hx2 | hx2
      · rcases List.mem_append.mp hx2 with hx3 | hx3
        · exact Or.inl hx3
        · exact Or.inr (hbound x hx3)
      · exact Or.inr hx2

theorem jsSetSort_sorted (l : List Int) : (jsSetSort l).Sorted (· < ·) := by
  have hs : (jsSetSort l).Sorted (· ≤ ·) := List.sorted_insertionSort _ _
  have hn : (jsSetSort l).Nodup :=
    ((List.perm_insertionSort _ _).nodup_iff).mpr (List.nodup_dedup l)
  exact hs.lt_of_le hn

theorem mem_jsSetSort {l : List Int} {x : Int} : x ∈ jsSetSort l ↔ x ∈ l := by
  unfold jsSetSort
  rw [(List.perm_insertionSort _ _).mem_iff, List.mem_dedup]

theorem jsSetSort_ne_nil {l : List Int} (h : l ≠ []) : jsSetSort l ≠ [] := by
  obtain ⟨x, hx⟩ := List.exists_mem_of_ne_nil l h
  intro hnil
  have hmem : x ∈ jsSetSort l := mem_jsSetSort.mpr hx
  rw [hnil] at hmem
  exact absurd hmem (List.not_mem_nil x)

theorem pageListAll_sorted (tp : Nat) : (pageListAll tp).Sorted (· < ·) := by
  unfold pageListAll
  refine List.Pairwise.map _ (fun a b hab => ?_) (List.pairwise_lt_range tp)
  omega

theorem mem_pageListAll {tp : Nat} {x : Int} (h : x ∈ pageListAll tp) :
    1 ≤ x ∧ x ≤ (tp : Int) := by
  simp only [pageListAll, List.mem_map, List.mem_range] at h
  obtain ⟨i, hi, rfl⟩ := h
  omega

theorem pageListAll_ne_nil {tp : Nat} (h : tp ≠ 0) : pageListAll tp ≠ [] := by
  simp only [pageListAll, ne_eq, List.map_eq_nil_iff, List.range_eq_nil]
  exact h

theorem splitOnChar_ne_nil (sep : Char) (s : List Char) : splitOnChar sep s ≠ [] := by
  induction s with
  | nil => simp [splitOnChar]
  | cons c rest ih =>
    simp only [splitOnChar]
    split
    · simp
    · split <;> simp

theorem splitOnChar_of_not_contains {sep : Char} {s : List Char}
    (h : s.contains sep = false) : splitOnChar sep s = [s] := by
  induction s with
  | nil => rfl
  | cons c rest ih =>
    simp only [List.contains_cons, Bool.or_eq_false_iff] at h
    have hc : (c == sep) = false := by
      have := h.1
      rw [beq_eq_false_iff_ne] at this ⊢
      exact fun hcs => this hcs.symm
    simp only [splitOnChar, hc, Bool.false_eq_true, if_false, ih h.2]

/-- C7: every successful `parsePageRange` result is strictly ascending (hence
duplicate-free), every element lies in `[1, totalPages]`, and the result is
non-empty whenever `totalPages ≠ 0`; the token `all` (case-insensitively) or
the empty expression returns exactly the pages `1` to `totalPages`, so
`totalPages = 0` with `all` yields the empty page set rather than an error. -/
theorem c7_pageset_invariants :
    (∀ (expr : List Char) (tp : Nat) (pages : List Int),
      parsePageRange expr tp = Except.ok pages →
      pages.Sorted (· < ·) ∧ (∀ x ∈ pages, 1 ≤ x ∧ x ≤ (tp : Int)) ∧
        (tp ≠ 0 → pages ≠ [])) ∧
    (∀ (expr : List Char) (tp : Nat), (expr = [] ∨ jsToLower expr = "all".data) →
      parsePageRange expr tp = Except.ok (pageListAll tp)) ∧
    (∀ tp : Nat, pageListAll tp = (List.range' 1 tp).map (fun (i : Nat) => (i : Int))) ∧
    parsePageRange "all".data 0 = Except.ok [] := by
  refine ⟨?_, ?_, ?_, rfl⟩
  · intro expr tp pages h
    unfold parsePageRange at h
    split at h
    · obtain rfl := Except.ok.inj h
      exact ⟨pageListAll_sorted tp, fun x hx => mem_pageListAll hx,
        fun h0 => pageListAll_ne_nil h0⟩
    · cases hps : processParts tp (splitOnChar ',' expr) [] with
      | error e => rw [hps] at h; exact Except.noConfusion h
      | ok acc =>
        rw [hps] at h
        obtain rfl := Except.ok.inj h
        obtain ⟨hmem, _, hlen⟩ := processParts_ok hps
        refine ⟨jsSetSort_sorted acc, ?_, fun _ => ?_⟩
        · intro x hx
          rcases hmem x (mem_jsSetSort.mp hx) with hx2 | hx2
          · exact absurd hx2 (List.not_mem_nil x)
          · exact hx2
        · apply jsSetSort_ne_nil
          have hne := hlen (splitOnChar_ne_nil ',' expr)
          intro hacc
          rw [hacc] at hne
          simp at hne
  · intro expr tp hall
    unfold parsePageRange
    rw [if_pos hall]
  · intro tp
    rw [List.range'_eq_map_range]
    simp only [pageListAll, List.map_map]
    refine List.map_congr_left ?_
    intro i _
    simp only [Function.comp_apply]
    omega

/-- C7 witness: a concrete mixed expression yields the strictly ascending,
bounded page set `[1, 2, 4, 6, 7, 8]`, and the case-insensitive `ALL` token
yields the full range. -/
theorem c7_pageset_witness :
    parsePageRange "1-2,4,6-8".data 10 = Except.ok [1, 2, 4, 6, 7, 8] ∧
    ([1, 2, 4, 6, 7, 8] : List Int).Sorted (· < ·) ∧
    (∀ x ∈ ([1, 2, 4, 6, 7, 8] : List Int), 1 ≤ x ∧ x ≤ (10 : Int)) ∧
    parsePageRange "ALL".data 3 = Except.ok (pageListAll 3) := by
  have hp : parsePageRange "1-2,4,6-8".data 10 = Except.ok [1, 2, 4, 6, 7, 8] := by rfl
  have h := c7_pageset_invariants.1 "1-2,4,6-8".data 10 [1, 2, 4, 6, 7, 8] hp
  exact ⟨hp, h.1, h.2.1, c7_pageset_invariants.2.1 "ALL".data 3 (Or.inr (by decide))⟩

/-- C8: for a term-expression (no comma, not empty, not the `all` token):
when the trimmed term contains `'-'` and violates the range conditions (a
bound fails to parse as an integer, or `start < 1`, or `end < start`, or
`end > totalPages`), `parsePageRange` fails with `INVALID_PAGE_RANGE`; when
the trimmed term has no `'-'` and does not parse as an integer in
`[1, totalPages]`, it fails with `INVALID_PAGE_NUMBER`.  In both cases the
result is an error, so no page set is returned. -/
theorem c8_invalid_terms_rejected (t : List Char) (tp : Nat)
    (hnc : t.contains ',' = false) (hne : t ≠ []) (hall : jsToLower t ≠ "all".data) :
    ((jsTrim t).contains '-' = true → rangeTermViolation tp (jsTrim t) = true →
      parsePageRange t tp = Except.error (rangeErr (jsTrim t))) ∧
    ((jsTrim t).contains '-' = false → singleTermViolation tp (jsTrim t) = true →
      parsePageRange t tp = Except.error (numberErr (jsTrim t))) := by
  have hpp : ∀ r, processPart tp [] t = r →
      parsePageRange t tp =
        (match r with
          | Except.error e => Except.error e
          | Except.ok pages => Except.ok (jsSetSort pages)) := by
    intro r hr
    unfold parsePageRange
    rw [if_neg (by rintro (h | h); exacts [hne h, hall h])]
    rw [splitOnChar_of_not_contains hnc]
    simp only [processParts, hr]
    cases r with
    | error e => rfl
    | ok pages => rfl
  constructor
  · intro hdash hviol
    have hps : processPart tp [] t = Except.error (rangeErr (jsTrim t)) := by
      simp only [processPart]
      rw [if_pos hdash]
      unfold rangeTermViolation at hviol
      revert hviol
      cases hsp : splitOnChar '-' (jsTrim t) with
      | nil => intro _; rfl
      | cons p0 rest0 =>
        cases rest0 with
        | nil => intro _; rfl
        | cons p1 rest1 =>
          intro hviol
          simp only [] at hviol ⊢
          cases hs : jsParseInt (jsTrim p0) with
          | none =>
            cases he : jsParseInt (jsTrim p1) with
            | none => rfl
            | some e => rfl
          | some s =>
            cases he : jsParseInt (jsTrim p1) with
            | none => rfl
            | some e =>
              rw [hs, he] at hviol
              have hviol2 :
                  (decide (s < 1) || decide (e < s) || decide (e > (tp : Int))) = true :=
                hviol
              simp only [Bool.or_eq_true, decide_eq_true_eq] at hviol2
              show (if s < 1 ∨ e < s ∨ e > (tp : Int) then
                  Except.error (rangeErr (jsTrim t))
                else Except.ok ([] ++ intRange s e)) = Except.error (rangeErr (jsTrim t))
              rw [if_pos (by tauto)]
    rw [hpp _ hps]
  · intro hdash hviol
    have hps : processPart tp [] t = Except.error (numberErr (jsTrim t)) := by
      simp only [processPart]
      rw [if_neg (by rw [hdash]; exact Bool.false_ne_true)]
      unfold singleTermViolation at hviol
      revert hviol
      cases hn : jsParseInt (jsTrim t) with
      | none => intro _; rfl
      | some n =>
        intro hviol
        have hviol2 : (decide (n < 1) || decide (n > (tp : Int))) = true := hviol
        simp only [Bool.or_eq_true, decide_eq_true_eq] at hviol2
        show (if n < 1 ∨ n > (tp : Int) then Except.error (numberErr (jsTrim t))
          else Except.ok ([] ++ [n])) = Except.error (numberErr (jsTrim t))
        rw [if_pos hviol2]
    rw [hpp _ hps]

/-- C8 witness: `0-5` and `5-15` with 10 total pages fail with
`INVALID_PAGE_RANGE`, and `invalid` fails with `INVALID_PAGE_NUMBER`. -/
theorem c8_invalid_terms_witness :
    parsePageRange "0-5".data 10 = Except.error (rangeErr "0-5".data) ∧
    parsePageRange "5-15".data 10 = Except.error (rangeErr "5-15".data) ∧
    parsePageRange "invalid".data 10 = Except.error (numberErr "invalid".data) :=
  ⟨(c8_invalid_terms_rejected "0-5".data 10 (by decide) (by decide) (by decide)).1
      (by decide) (by decide),
    (c8_invalid_terms_rejected "5-15".data 10 (by decide) (by decide) (by decide)).1
      (by decide) (by decide),
    (c8_invalid_terms_rejected "invalid".data 10 (by decide) (by decide) (by decide)).2
      (by decide) (by decide)⟩

end PdfMcp
